import Mathlib

/-!
# Verification of the UDP broadcast server (`src/server.py`)

Shallow embedding of the server's client registry, control-message listener
and broadcast loop, together with proofs of the specification claims.

The server keeps two structures guarded by one lock:
  * `self.clients : Set[Tuple[str, int]]`      — the registered endpoints;
  * `self.client_last_seen : dict`             — endpoint ↦ last-seen time.
We model endpoints as `String × Nat` (address, port), timestamps as `Int`
(the claims are purely order-theoretic, so the float clock is modelled by an
ordered integer clock), the client set as a `List Endpoint` used up to
membership, and the dict as an association list `List (Endpoint × Int)`.
-/

namespace UDPServer

/-- A subscriber endpoint: `(ip, port)` as produced by `socket.recvfrom`. -/
abbrev Endpoint := String × Nat

/-- `HEARTBEAT_TIMEOUT = 30` (`server.py` line 21). -/
def HEARTBEAT_TIMEOUT : Int := 30

/-- Lookup in the `client_last_seen` dict: first binding for the key. -/
def lookupTS : List (Endpoint × Int) → Endpoint → Option Int
  | [], _ => none
  | (b, u) :: rest, a => if b = a then some u else lookupTS rest a

/-- `self.client_last_seen[address] = now` — update the binding if the key is
present, otherwise append a new binding (Python dicts keep insertion order). -/
def setTS : List (Endpoint × Int) → Endpoint → Int → List (Endpoint × Int)
  | [], a, t => [(a, t)]
  | (b, u) :: rest, a, t =>
      if b = a then (b, t) :: rest else (b, u) :: setTS rest a t

/-- `self.client_last_seen.pop(address, None)` / `del self.client_last_seen[addr]`:
remove the binding for the key, no-op when absent. -/
def delTS (m : List (Endpoint × Int)) (a : Endpoint) : List (Endpoint × Int) :=
  m.filter (fun p => decide (p.1 ≠ a))

/-- The shared registry state: `self.clients` and `self.client_last_seen`
(`server.py` lines 52–53). -/
@[ext]
structure Registry where
  clients : List Endpoint
  lastSeen : List (Endpoint × Int)
deriving Repr, DecidableEq

/-- `add_client` (`server.py` lines 89–100): add the endpoint to `clients`
when absent, then unconditionally set its last-seen timestamp to `now`. -/
def Registry.addClient (r : Registry) (a : Endpoint) (now : Int) : Registry :=
  { clients := if a ∈ r.clients then r.clients else r.clients ++ [a],
    lastSeen := setTS r.lastSeen a now }

/-- `self.clients.discard(address)` followed by
`self.client_last_seen.pop(address, None)` — used for `DISCONNECT`
(`server.py` lines 129–131) and for eviction on send failure (lines 173–175). -/
def Registry.removeClient (r : Registry) (a : Endpoint) : Registry :=
  { clients := r.clients.filter (fun x => decide (x ≠ a)),
    lastSeen := delTS r.lastSeen a }

/-- `remove_stale_clients` (`server.py` lines 102–113): collect every key of
`client_last_seen` with `current_time - last_seen > HEARTBEAT_TIMEOUT`
(strict), then discard each from `clients` and delete it from the dict.
The timeout is a module constant in the code; it is a parameter here. -/
def Registry.removeStaleClients (r : Registry) (now timeout : Int) : Registry :=
  let stale := (r.lastSeen.filter (fun p => decide (now - p.2 > timeout))).map Prod.fst
  { clients := r.clients.filter (fun a => decide (a ∉ stale)),
    lastSeen := r.lastSeen.filter (fun p => decide (p.1 ∉ stale)) }

/-- Whitespace as recognised by Python's `str.strip()` / `str.isspace()`
(CPython's `Py_UNICODE_ISSPACE`): the exact code-point set
`{U+0009–U+000D, U+001C–U+001F, U+0020, U+0085, U+00A0, U+1680,
U+2000–U+200A, U+2028, U+2029, U+202F, U+205F, U+3000}`. -/
def pySpace (c : Char) : Bool :=
  (0x09 ≤ c.toNat && c.toNat ≤ 0x0d)
    || (0x1c ≤ c.toNat && c.toNat ≤ 0x20)
    || c.toNat = 0x85 || c.toNat = 0xa0 || c.toNat = 0x1680
    || (0x2000 ≤ c.toNat && c.toNat ≤ 0x200a)
    || c.toNat = 0x2028 || c.toNat = 0x2029 || c.toNat = 0x202f
    || c.toNat = 0x205f || c.toNat = 0x3000

/-- Drop leading whitespace from a character list. -/
def dropSpace : List Char → List Char
  | [] => []
  | c :: cs => if pySpace c then dropSpace cs else c :: cs

/-- Python's `str.strip()` with no argument: remove leading and trailing
whitespace.  (Modelled structurally over the character list so that the
kernel can evaluate it; `String.trim` itself is defined by well-founded
recursion over byte positions and does not reduce.) -/
def pyStrip (s : String) : String :=
  ⟨(dropSpace (dropSpace s.data).reverse).reverse⟩

/-- A received datagram, after the `data.decode('utf-8')` attempt:
either it decodes to a text string or the decode raises. -/
inductive Datagram where
  | text (s : String)
  | undecodable
deriving Repr, DecidableEq

/-- Observable outcome of handling one datagram in `listen_for_clients`:
the registry afterwards, the reply datagram sent back (if any), and whether
the iteration emitted a log record for this datagram. -/
@[ext]
structure StepOut where
  reg : Registry
  reply : Option String
  logged : Bool
deriving Repr, DecidableEq

/-- One iteration of `listen_for_clients` (`server.py` lines 118–138) applied
to a received datagram.  The code computes `message = data.decode('utf-8').strip()`
and dispatches on the *stripped* text (`pyStrip`).  `CONNECT`/`HEARTBEAT` register the sender and reply `ACK`
(`add_client` logs only when the client is new); `DISCONNECT` removes the
sender and logs; any other text falls through both branches silently; a
decode failure raises and is caught by the `except Exception` arm, which logs
(the server is running). -/
def handleDatagram (r : Registry) (sender : Endpoint) (d : Datagram) (now : Int) :
    StepOut :=
  match d with
  | .undecodable => ⟨r, none, true⟩
  | .text s =>
      let message := pyStrip s
      if message = "CONNECT" ∨ message = "HEARTBEAT" then
        ⟨r.addClient sender now, some "ACK", decide (sender ∉ r.clients)⟩
      else if message = "DISCONNECT" then
        ⟨r.removeClient sender, none, true⟩
      else
        ⟨r, none, false⟩

/-- The line terminator appended to every broadcast payload line:
`message = f"{line}\r\n"` (`server.py` line 169). -/
def crlf : String := "\r\n"

/-- Observable outcome of one broadcast tick: the registry afterwards and
the datagrams actually delivered, in send order. -/
@[ext]
structure TickOut where
  reg : Registry
  sent : List (Endpoint × String)
deriving Repr, DecidableEq

/-- One iteration of the inner `for line in lines` loop of `broadcast_lines`
(`server.py` lines 151–175), minus the trailing sleep: reap stale clients,
snapshot `self.clients` under the lock, skip when the snapshot is empty,
otherwise send `line + "\r\n"` to every snapshot member; a send that raises
(`fails e = true`) delivers nothing and evicts that endpoint from both
structures, and the loop moves on to the next endpoint. -/
def sendStep (line : String) (fails : Endpoint → Bool) (acc : TickOut)
    (e : Endpoint) : TickOut :=
  if fails e then ⟨acc.reg.removeClient e, acc.sent⟩
  else ⟨acc.reg, acc.sent ++ [(e, line ++ crlf)]⟩

/-- The reap / snapshot / per-endpoint send sequence for one line, i.e. one
broadcast tick (see `sendStep` for the per-endpoint body). -/
def broadcastTick (r : Registry) (line : String) (now timeout : Int)
    (fails : Endpoint → Bool) : TickOut :=
  let r1 := r.removeStaleClients now timeout
  let snapshot := r1.clients
  if snapshot.length = 0 then ⟨r1, []⟩
  else snapshot.foldl (sendStep line fails) ⟨r1, []⟩

/-- One full traversal of a loaded line list (`for line in lines`), with the
tick counter `i` indexing the per-tick clock `nows` and threaded through;
returns the final registry, all delivered datagrams in order, and the next
tick index. -/
def broadcastTraversal (r : Registry) (lines : List String) (nows : Nat → Int)
    (i : Nat) (timeout : Int) (fails : Endpoint → Bool) :
    Registry × List (Endpoint × String) × Nat :=
  match lines with
  | [] => (r, [], i)
  | line :: rest =>
      let t := broadcastTick r line (nows i) timeout fails
      let z := broadcastTraversal t.reg rest nows (i + 1) timeout fails
      (z.1, t.sent ++ z.2.1, z.2.2)

/-- `read_file_lines` (`server.py` lines 73–87): the file's current state is
either a readable list of (already line-terminator-stripped) lines, or
unreadable (`none`), in which case the exception is logged and `[]` is
returned. -/
def read_file_lines (contents : Option (List String)) : List String :=
  match contents with
  | some ls => ls
  | none => []

/-- The outer `while self.running` loop of `broadcast_lines` (`server.py`
lines 144–177).  `fuel` counts the remaining iterations before `running` is
cleared; `fileState k` is the payload file's state when iteration `k`
re-reads it; `i` is the global tick counter feeding the clock `nows`.
Returns the final registry, every delivered datagram in order, and the
number of empty-load waits (`time.sleep(BROADCAST_INTERVAL)` on the
`if not lines` branch, line 148) that occurred. -/
def broadcastLoopRun (fileState : Nat → Option (List String)) (nows : Nat → Int)
    (timeout : Int) (fails : Endpoint → Bool) :
    Nat → Nat → Nat → Registry → Registry × List (Endpoint × String) × Nat
  | 0, _, _, r => (r, [], 0)
  | fuel + 1, k, i, r =>
      let lines := read_file_lines (fileState k)
      if lines.isEmpty then
        let z := broadcastLoopRun fileState nows timeout fails fuel (k + 1) i r
        (z.1, z.2.1, z.2.2 + 1)
      else
        let t := broadcastTraversal r lines nows i timeout fails
        let z := broadcastLoopRun fileState nows timeout fails fuel (k + 1) t.2.2 t.1
        (z.1, t.2.1 ++ z.2.1, z.2.2)

/-- A Python exception, as far as `main` distinguishes them: the
`KeyboardInterrupt` arm versus the `except Exception` arm. -/
inductive PyExc where
  | keyboardInterrupt
  | fileNotFound
  | oserror
deriving Repr, DecidableEq

/-- What a call to `UDPBroadcastServer.start` does. -/
inductive StartResult where
  | raised (e : PyExc)
  | returned
deriving Repr, DecidableEq

/-- `validate_data_file` (`server.py` lines 58–71): true iff the payload
path exists and is a regular file.  (Readability is not checked here: an
existing but unreadable file passes validation and only fails later inside
`read_file_lines`, which swallows the error.) -/
def validate_data_file (fileExists isFile : Bool) : Bool :=
  fileExists && isFile

/-- `UDPBroadcastServer.start` (`server.py` lines 179–204): raise
`FileNotFoundError` when validation fails; creating/binding the socket
raises `OSError` on bind failure, which the inner `except` logs and
re-raises; otherwise the broadcast loop runs in the main thread until it is
interrupted (`runRaises = some .keyboardInterrupt`) or `running` is cleared
and `start` returns. -/
def start (fileExists isFile bindOk : Bool) (runRaises : Option PyExc) :
    StartResult :=
  if !(validate_data_file fileExists isFile) then .raised .fileNotFound
  else if !bindOk then .raised .oserror
  else
    match runRaises with
    | some e => .raised e
    | none => .returned

/-- The process exit code produced by `main` (`server.py` lines 220–240).
`main` wraps `server.start()` in `try/except KeyboardInterrupt/except
Exception/finally`: *every* exception `start` can raise is caught and
logged, `server.stop()` runs in the `finally` block, `main` returns `None`,
and the interpreter exits with status 0. -/
def mainExitCode (fileExists isFile bindOk : Bool) (runRaises : Option PyExc) :
    Nat :=
  match start fileExists isFile bindOk runRaises with
  | .raised .keyboardInterrupt => 0
  | .raised .fileNotFound => 0
  | .raised .oserror => 0
  | .returned => 0

/-- Iterated `Registry.removeClient` — the cumulative effect of the
per-endpoint eviction arm of `sendStep` over a list of failing endpoints. -/
def evictAll (r : Registry) (l : List Endpoint) : Registry :=
  l.foldl Registry.removeClient r

/-- N consecutive `CONNECT` datagrams from endpoint `a` handled by
`listen_for_clients` at the given times, in order. -/
def processConnects (r : Registry) (a : Endpoint) (times : List Int) : Registry :=
  times.foldl (fun s t => (handleDatagram s a (.text "CONNECT") t).reg) r

/-- `self.clients == keys(self.client_last_seen)` as sets — the implicit
invariant tying the two registry structures together. -/
def inSync (r : Registry) : Prop :=
  ∀ a : Endpoint, a ∈ r.clients ↔ a ∈ r.lastSeen.map Prod.fst

/-- Well-formedness of the registry state: the client list is duplicate-free
(it models a Python `set`), the dict has duplicate-free keys, and the two
structures are in sync. -/
def WF (r : Registry) : Prop :=
  r.clients.Nodup ∧ (r.lastSeen.map Prod.fst).Nodup ∧ inSync r

/-! ## Helper lemmas -/

theorem lookupTS_setTS_self (m : List (Endpoint × Int)) (a : Endpoint) (t : Int) :
    lookupTS (setTS m a t) a = some t := by
  induction m with
  | nil => simp [setTS, lookupTS]
  | cons p rest ih =>
      obtain ⟨b, u⟩ := p
      by_cases h : b = a
      · subst h; simp [setTS, lookupTS]
      · simp [setTS, lookupTS, h, ih]

theorem keys_setTS (m : List (Endpoint × Int)) (a : Endpoint) (t : Int) :
    (setTS m a t).map Prod.fst
      = if a ∈ m.map Prod.fst then m.map Prod.fst else m.map Prod.fst ++ [a] := by
  induction m with
  | nil => simp [setTS]
  | cons p rest ih =>
      obtain ⟨b, u⟩ := p
      by_cases h : b = a
      · subst h; simp [setTS]
      · have hba : ¬ a = b := fun e => h e.symm
        by_cases hm : a ∈ rest.map Prod.fst
        · simp [setTS, h, ih, hm, hba]
        · simp [setTS, h, ih, hm, hba]

theorem mem_keys_setTS (m : List (Endpoint × Int)) (a b : Endpoint) (t : Int) :
    b ∈ (setTS m a t).map Prod.fst ↔ b ∈ m.map Prod.fst ∨ b = a := by
  rw [keys_setTS]
  by_cases hm : a ∈ m.map Prod.fst
  · simp only [hm, if_true]
    constructor
    · exact Or.inl
    · rintro (h | rfl)
      · exact h
      · exact hm
  · simp [hm]

theorem keys_setTS_nodup (m : List (Endpoint × Int)) (a : Endpoint) (t : Int)
    (h : (m.map Prod.fst).Nodup) : ((setTS m a t).map Prod.fst).Nodup := by
  rw [keys_setTS]
  by_cases hm : a ∈ m.map Prod.fst
  · simpa [hm] using h
  · simp [hm, List.nodup_append, h]

theorem val_unique {m : List (Endpoint × Int)} {a : Endpoint} {u v : Int}
    (hn : (m.map Prod.fst).Nodup) (hu : (a, u) ∈ m) (hv : (a, v) ∈ m) : u = v := by
  induction m with
  | nil => cases hu
  | cons p rest ih =>
      obtain ⟨b, w⟩ := p
      rw [List.map_cons, List.nodup_cons] at hn
      obtain ⟨hfst, hrest⟩ := hn
      rcases List.mem_cons.mp hu with hu1 | hu2
      · rcases List.mem_cons.mp hv with hv1 | hv2
        · simp only [Prod.mk.injEq] at hu1 hv1
          exact hu1.2.trans hv1.2.symm
        · simp only [Prod.mk.injEq] at hu1
          exact absurd (List.mem_map.mpr ⟨(a, v), hv2, hu1.1⟩) hfst
      · rcases List.mem_cons.mp hv with hv1 | hv2
        · simp only [Prod.mk.injEq] at hv1
          exact absurd (List.mem_map.mpr ⟨(a, u), hu2, hv1.1⟩) hfst
        · exact ih hrest hu2 hv2

theorem mem_clients_addClient (r : Registry) (a b : Endpoint) (now : Int) :
    b ∈ (r.addClient a now).clients ↔ b ∈ r.clients ∨ b = a := by
  unfold Registry.addClient
  by_cases h : a ∈ r.clients
  · simp only [h, if_true]
    constructor
    · exact Or.inl
    · rintro (hb | rfl)
      · exact hb
      · exact h
  · simp [h]

theorem clients_addClient_nodup (r : Registry) (a : Endpoint) (now : Int)
    (h : r.clients.Nodup) : (r.addClient a now).clients.Nodup := by
  unfold Registry.addClient
  by_cases hm : a ∈ r.clients
  · simpa [hm] using h
  · simp [hm, List.nodup_append, h]

theorem inSync_addClient (r : Registry) (a : Endpoint) (now : Int)
    (h : inSync r) : inSync (r.addClient a now) := by
  intro b
  rw [mem_clients_addClient]
  show _ ↔ b ∈ (setTS r.lastSeen a now).map Prod.fst
  rw [mem_keys_setTS, h b]

theorem WF_addClient (r : Registry) (a : Endpoint) (now : Int) (h : WF r) :
    WF (r.addClient a now) :=
  ⟨clients_addClient_nodup r a now h.1,
   keys_setTS_nodup r.lastSeen a now h.2.1,
   inSync_addClient r a now h.2.2⟩

theorem mem_clients_removeClient (r : Registry) (a b : Endpoint) :
    b ∈ (r.removeClient a).clients ↔ b ∈ r.clients ∧ b ≠ a := by
  simp [Registry.removeClient]

theorem mem_lastSeen_removeClient (r : Registry) (a : Endpoint) (p : Endpoint × Int) :
    p ∈ (r.removeClient a).lastSeen ↔ p ∈ r.lastSeen ∧ p.1 ≠ a := by
  simp [Registry.removeClient, delTS]

theorem inSync_removeClient (r : Registry) (a : Endpoint) (h : inSync r) :
    inSync (r.removeClient a) := by
  intro b
  rw [mem_clients_removeClient]
  constructor
  · rintro ⟨hb, hba⟩
    rcases List.mem_map.mp ((h b).mp hb) with ⟨p, hp, rfl⟩
    exact List.mem_map.mpr ⟨p, (mem_lastSeen_removeClient r a p).mpr ⟨hp, hba⟩, rfl⟩
  · intro hb
    rcases List.mem_map.mp hb with ⟨p, hp, rfl⟩
    rcases (mem_lastSeen_removeClient r a p).mp hp with ⟨hp', hpa⟩
    exact ⟨(h p.1).mpr (List.mem_map.mpr ⟨p, hp', rfl⟩), hpa⟩

theorem lookupTS_eq_none_iff (m : List (Endpoint × Int)) (a : Endpoint) :
    lookupTS m a = none ↔ a ∉ m.map Prod.fst := by
  induction m with
  | nil => simp [lookupTS]
  | cons p rest ih =>
      obtain ⟨b, u⟩ := p
      by_cases h : b = a
      · subst h; simp [lookupTS]
      · simp [lookupTS, h, ih, (show ¬ a = b from fun e => h e.symm)]

theorem mem_stale (ls : List (Endpoint × Int)) (now timeout : Int) (b : Endpoint) :
    b ∈ ((ls.filter (fun p => decide (now - p.2 > timeout))).map Prod.fst)
      ↔ ∃ t, (b, t) ∈ ls ∧ now - t > timeout := by
  constructor
  · intro hb
    rcases List.mem_map.mp hb with ⟨p, hp, hpb⟩
    subst hpb
    rcases List.mem_filter.mp hp with ⟨hp1, hp2⟩
    exact ⟨p.2, by simpa using hp1, by simpa using hp2⟩
  · rintro ⟨t, ht, hgt⟩
    exact List.mem_map.mpr ⟨(b, t), List.mem_filter.mpr ⟨ht, by simpa using hgt⟩, rfl⟩

theorem mem_clients_removeStale (r : Registry) (now timeout : Int) (b : Endpoint) :
    b ∈ (r.removeStaleClients now timeout).clients
      ↔ b ∈ r.clients ∧ ∀ t, (b, t) ∈ r.lastSeen → now - t ≤ timeout := by
  show b ∈ r.clients.filter _ ↔ _
  rw [List.mem_filter]
  simp only [decide_eq_true_eq, mem_stale, not_exists, not_and, not_lt]

theorem mem_lastSeen_removeStale (r : Registry) (now timeout : Int)
    (p : Endpoint × Int) :
    p ∈ (r.removeStaleClients now timeout).lastSeen
      ↔ p ∈ r.lastSeen ∧ ∀ t, (p.1, t) ∈ r.lastSeen → now - t ≤ timeout := by
  show p ∈ r.lastSeen.filter _ ↔ _
  rw [List.mem_filter]
  simp only [decide_eq_true_eq, mem_stale, not_exists, not_and, not_lt]

theorem removeStale_noop (r : Registry) (now timeout : Int)
    (h : ∀ p ∈ r.lastSeen, now - p.2 ≤ timeout) :
    r.removeStaleClients now timeout = r := by
  have hst : r.lastSeen.filter (fun p => decide (now - p.2 > timeout)) = [] :=
    List.filter_eq_nil_iff.mpr (fun p hp => by simpa using not_lt.mpr (h p hp))
  unfold Registry.removeStaleClients
  rw [hst]
  ext1
  · simp
  · simp

theorem inSync_removeStale (r : Registry) (now timeout : Int) (h : inSync r) :
    inSync (r.removeStaleClients now timeout) := by
  intro b
  rw [mem_clients_removeStale]
  constructor
  · rintro ⟨hb, hall⟩
    rcases List.mem_map.mp ((h b).mp hb) with ⟨p, hp, hpb⟩
    subst hpb
    exact List.mem_map.mpr
      ⟨p, (mem_lastSeen_removeStale r now timeout p).mpr ⟨hp, hall⟩, rfl⟩
  · intro hb
    rcases List.mem_map.mp hb with ⟨p, hp, hpb⟩
    subst hpb
    rcases (mem_lastSeen_removeStale r now timeout p).mp hp with ⟨hp', hall⟩
    exact ⟨(h p.1).mpr (List.mem_map.mpr ⟨p, hp', rfl⟩), hall⟩

theorem mem_clients_evictAll (l : List Endpoint) (r : Registry) (a : Endpoint) :
    a ∈ (evictAll r l).clients ↔ a ∈ r.clients ∧ a ∉ l := by
  induction l generalizing r with
  | nil => simp [evictAll]
  | cons x xs ih =>
      show a ∈ (evictAll (r.removeClient x) xs).clients ↔ _
      rw [ih, mem_clients_removeClient]
      simp only [List.mem_cons, not_or]
      tauto

theorem mem_lastSeen_evictAll (l : List Endpoint) (r : Registry)
    (p : Endpoint × Int) :
    p ∈ (evictAll r l).lastSeen ↔ p ∈ r.lastSeen ∧ p.1 ∉ l := by
  induction l generalizing r with
  | nil => simp [evictAll]
  | cons x xs ih =>
      show p ∈ (evictAll (r.removeClient x) xs).lastSeen ↔ _
      rw [ih, mem_lastSeen_removeClient]
      simp only [List.mem_cons, not_or]
      tauto

theorem inSync_evictAll (l : List Endpoint) (r : Registry) (h : inSync r) :
    inSync (evictAll r l) := by
  induction l generalizing r with
  | nil => exact h
  | cons x xs ih => exact ih (r.removeClient x) (inSync_removeClient r x h)

theorem foldl_sendStep_sent (line : String) (fails : Endpoint → Bool)
    (l : List Endpoint) (acc : TickOut) :
    (l.foldl (sendStep line fails) acc).sent
      = acc.sent ++ (l.filter (fun e => !fails e)).map (fun e => (e, line ++ crlf)) := by
  induction l generalizing acc with
  | nil => simp
  | cons x xs ih =>
      by_cases h : fails x
      · simp [sendStep, h, ih]
      · simp [sendStep, h, ih]

theorem foldl_sendStep_reg (line : String) (fails : Endpoint → Bool)
    (l : List Endpoint) (acc : TickOut) :
    (l.foldl (sendStep line fails) acc).reg = evictAll acc.reg (l.filter fails) := by
  induction l generalizing acc with
  | nil => simp [evictAll]
  | cons x xs ih =>
      by_cases h : fails x
      · simp [sendStep, h, ih, evictAll]
      · simp [sendStep, h, ih]

theorem broadcastTick_sent (r : Registry) (line : String) (now timeout : Int)
    (fails : Endpoint → Bool) :
    (broadcastTick r line now timeout fails).sent
      = ((r.removeStaleClients now timeout).clients.filter (fun e => !fails e)).map
          (fun e => (e, line ++ crlf)) := by
  unfold broadcastTick
  by_cases h : (r.removeStaleClients now timeout).clients.length = 0
  · rw [List.length_eq_zero] at h
    simp [h]
  · rw [if_neg h, foldl_sendStep_sent]
    simp

theorem broadcastTick_reg (r : Registry) (line : String) (now timeout : Int)
    (fails : Endpoint → Bool) :
    (broadcastTick r line now timeout fails).reg
      = evictAll (r.removeStaleClients now timeout)
          ((r.removeStaleClients now timeout).clients.filter fails) := by
  unfold broadcastTick
  by_cases h : (r.removeStaleClients now timeout).clients.length = 0
  · rw [List.length_eq_zero] at h
    simp [h, evictAll]
  · rw [if_neg h, foldl_sendStep_reg]

theorem broadcastTick_nofail (r : Registry) (line : String) (now timeout : Int) :
    broadcastTick r line now timeout (fun _ => false)
      = ⟨r.removeStaleClients now timeout,
         (r.removeStaleClients now timeout).clients.map (fun e => (e, line ++ crlf))⟩ := by
  ext1
  · rw [broadcastTick_reg]
    simp [evictAll]
  · rw [broadcastTick_sent]
    simp

theorem broadcastTick_nostale_nofail (r : Registry) (line : String)
    (now timeout : Int) (h : ∀ p ∈ r.lastSeen, now - p.2 ≤ timeout) :
    broadcastTick r line now timeout (fun _ => false)
      = ⟨r, r.clients.map (fun e => (e, line ++ crlf))⟩ := by
  rw [broadcastTick_nofail, removeStale_noop r now timeout h]

theorem broadcastTraversal_nofail (r : Registry) (lines : List String)
    (nows : Nat → Int) (i : Nat) (timeout : Int)
    (h : ∀ j, ∀ p ∈ r.lastSeen, nows j - p.2 ≤ timeout) :
    broadcastTraversal r lines nows i timeout (fun _ => false)
      = (r, (lines.map (fun line => r.clients.map (fun e => (e, line ++ crlf)))).flatten,
         i + lines.length) := by
  induction lines generalizing i with
  | nil => simp [broadcastTraversal]
  | cons line rest ih =>
      simp only [broadcastTraversal]
      rw [broadcastTick_nostale_nofail r line (nows i) timeout (h i), ih (i + 1)]
      simp only [List.map_cons, List.flatten_cons, List.length_cons]
      refine congrArg _ (congrArg _ ?_)
      omega

theorem proj_map_single (clients : List Endpoint) (e : Endpoint) (m : String)
    (hn : clients.Nodup) (he : e ∈ clients) :
    ((clients.map (fun c => (c, m))).filter (fun p => decide (p.1 = e))).map Prod.snd
      = [m] := by
  induction clients with
  | nil => cases he
  | cons c rest ih =>
      rw [List.nodup_cons] at hn
      rcases List.mem_cons.mp he with rfl | hrest
      · have hrest0 :
            (rest.map (fun c => (c, m))).filter (fun p => decide (p.1 = e)) = [] := by
          refine List.filter_eq_nil_iff.mpr ?_
          rintro p hp
          rcases List.mem_map.mp hp with ⟨x, hx, hxp⟩
          subst hxp
          simp only [decide_eq_true_eq]
          rintro rfl
          exact hn.1 hx
        simp [List.filter_cons, hrest0]
      · have hne : c ≠ e := by
          rintro rfl
          exact hn.1 hrest
        simp [List.filter_cons, hne, ih hn.2 hrest]

theorem proj_join (lines : List String) (clients : List Endpoint) (e : Endpoint)
    (hn : clients.Nodup) (he : e ∈ clients) :
    (((lines.map (fun line => clients.map (fun c => (c, line ++ crlf)))).flatten).filter
        (fun p => decide (p.1 = e))).map Prod.snd
      = lines.map (fun l => l ++ crlf) := by
  induction lines with
  | nil => simp
  | cons line rest ih =>
      simp only [List.map_cons, List.flatten_cons, List.filter_append, List.map_append]
      rw [proj_map_single clients e (line ++ crlf) hn he, ih]
      rfl

theorem loopRun_reg_nofail (linesOf : Nat → List String) (nows : Nat → Int)
    (timeout : Int) (r : Registry)
    (hne : ∀ j, linesOf j ≠ [])
    (hst : ∀ j, ∀ p ∈ r.lastSeen, nows j - p.2 ≤ timeout) :
    ∀ fuel k i,
      (broadcastLoopRun (fun k' => some (linesOf k')) nows timeout
        (fun _ => false) fuel k i r).1 = r := by
  intro fuel
  induction fuel with
  | zero => intro k i; rfl
  | succ fuel ih =>
      intro k i
      have hl : (read_file_lines (some (linesOf k))).isEmpty = false := by
        simpa [read_file_lines, List.isEmpty_iff] using hne k
      simp only [broadcastLoopRun, hl, Bool.false_eq_true, if_false]
      rw [show read_file_lines (some (linesOf k)) = linesOf k from rfl,
        broadcastTraversal_nofail r (linesOf k) nows i timeout hst]
      exact ih (k + 1) (i + (linesOf k).length)

theorem loopRun_proj_nofail (linesOf : Nat → List String) (nows : Nat → Int)
    (timeout : Int) (r : Registry) (e : Endpoint)
    (hn : r.clients.Nodup) (he : e ∈ r.clients)
    (hne : ∀ j, linesOf j ≠ [])
    (hst : ∀ j, ∀ p ∈ r.lastSeen, nows j - p.2 ≤ timeout) :
    ∀ fuel k i,
      (((broadcastLoopRun (fun k' => some (linesOf k')) nows timeout
          (fun _ => false) fuel k i r).2.1).filter
            (fun p => decide (p.1 = e))).map Prod.snd
        = (((List.range fuel).map (fun j => linesOf (k + j))).flatten).map
            (fun l => l ++ crlf) := by
  intro fuel
  induction fuel with
  | zero => intro k i; rfl
  | succ fuel ih =>
      intro k i
      have hl : (read_file_lines (some (linesOf k))).isEmpty = false := by
        simpa [read_file_lines, List.isEmpty_iff] using hne k
      simp only [broadcastLoopRun, hl, Bool.false_eq_true, if_false]
      rw [show read_file_lines (some (linesOf k)) = linesOf k from rfl,
        broadcastTraversal_nofail r (linesOf k) nows i timeout hst]
      simp only [List.filter_append, List.map_append]
      rw [proj_join (linesOf k) r.clients e hn he, ih (k + 1) (i + (linesOf k).length)]
      rw [List.range_succ_eq_map, List.map_cons, List.flatten_cons, List.map_map,
        List.map_append, Nat.add_zero]
      congr 2
      congr 1
      refine List.map_congr_left ?_
      intro j _
      simp only [Function.comp_apply]
      congr 1
      omega

theorem loopRun_empty (fileState : Nat → Option (List String)) (nows : Nat → Int)
    (timeout : Int) (fails : Endpoint → Bool) :
    ∀ m k i r, (∀ j, j < m → read_file_lines (fileState (k + j)) = []) →
      broadcastLoopRun fileState nows timeout fails m k i r = (r, [], m) := by
  intro m
  induction m with
  | zero => intro k i r _; rfl
  | succ m ih =>
      intro k i r h
      have h0 : read_file_lines (fileState k) = [] := by
        simpa using h 0 (Nat.succ_pos m)
      have hrec := ih (k + 1) i r (fun j hj => by
        have := h (j + 1) (by omega)
        rwa [show k + (j + 1) = k + 1 + j by omega] at this)
      simp only [broadcastLoopRun, h0, List.isEmpty_nil, if_true, hrec]

theorem loopRun_empty_then_run (fileState : Nat → Option (List String))
    (nows : Nat → Int) (timeout : Int) (fails : Endpoint → Bool) :
    ∀ m k i r, (∀ j, j < m → read_file_lines (fileState (k + j)) = []) →
      read_file_lines (fileState (k + m)) ≠ [] →
      broadcastLoopRun fileState nows timeout fails (m + 1) k i r
        = ((broadcastTraversal r (read_file_lines (fileState (k + m)))
              nows i timeout fails).1,
           (broadcastTraversal r (read_file_lines (fileState (k + m)))
              nows i timeout fails).2.1,
           m) := by
  intro m
  induction m with
  | zero =>
      intro k i r _ hne
      have hl : (read_file_lines (fileState (k + 0))).isEmpty = false := by
        simpa [List.isEmpty_iff] using hne
      rw [show k + 0 = k from rfl] at hl hne ⊢
      simp only [broadcastLoopRun, hl, Bool.false_eq_true, if_false]
      simp
  | succ m ih =>
      intro k i r h hne
      have h0 : read_file_lines (fileState k) = [] := by
        simpa using h 0 (Nat.succ_pos m)
      have hsh : ∀ j, j < m → read_file_lines (fileState (k + 1 + j)) = [] := by
        intro j hj
        have := h (j + 1) (by omega)
        rwa [show k + (j + 1) = k + 1 + j by omega] at this
      have hne' : read_file_lines (fileState (k + 1 + m)) ≠ [] := by
        rwa [show k + 1 + m = k + (m + 1) by omega]
      have hrec := ih (k + 1) i r hsh hne'
      rw [show k + 1 + m = k + (m + 1) by omega] at hrec
      rw [broadcastLoopRun]
      simp only [h0, List.isEmpty_nil, if_true]
      rw [hrec]

theorem handleText_cases (r : Registry) (a : Endpoint) (s : String) (now : Int) :
    ((pyStrip s = "CONNECT" ∨ pyStrip s = "HEARTBEAT") →
        handleDatagram r a (.text s) now
          = ⟨r.addClient a now, some "ACK", decide (a ∉ r.clients)⟩)
    ∧ (pyStrip s = "DISCONNECT" →
        handleDatagram r a (.text s) now = ⟨r.removeClient a, none, true⟩)
    ∧ (pyStrip s ≠ "CONNECT" → pyStrip s ≠ "HEARTBEAT" → pyStrip s ≠ "DISCONNECT" →
        handleDatagram r a (.text s) now = ⟨r, none, false⟩) := by
  refine ⟨fun h1 => ?_, fun h2 => ?_, fun hc hh hd => ?_⟩
  · simp only [handleDatagram]
    rw [if_pos h1]
  · have hno : ¬(pyStrip s = "CONNECT" ∨ pyStrip s = "HEARTBEAT") := by
      rintro (h | h) <;> rw [h] at h2 <;> exact absurd h2 (by decide)
    simp only [handleDatagram]
    rw [if_neg hno, if_pos h2]
  · have hno : ¬(pyStrip s = "CONNECT" ∨ pyStrip s = "HEARTBEAT") := by
      rintro (h | h)
      exacts [hc h, hh h]
    simp only [handleDatagram]
    rw [if_neg hno, if_neg hd]

theorem handle_connect_reg (r : Registry) (a : Endpoint) (t : Int) :
    (handleDatagram r a (.text "CONNECT") t).reg = r.addClient a t := by
  rw [(handleText_cases r a "CONNECT" t).1 (Or.inl (by decide))]

theorem processConnects_cons (r : Registry) (a : Endpoint) (t : Int)
    (rest : List Int) :
    processConnects r a (t :: rest) = processConnects (r.addClient a t) a rest := by
  simp [processConnects, handle_connect_reg]

theorem processConnects_spec (a : Endpoint) :
    ∀ (times : List Int), ∀ (r : Registry), WF r → ∀ (_ : times ≠ []),
      WF (processConnects r a times)
      ∧ a ∈ (processConnects r a times).clients
      ∧ ∀ (h : times ≠ []),
          lookupTS (processConnects r a times).lastSeen a
            = some (times.getLast h) := by
  intro times
  induction times with
  | nil => intro r _ h; exact absurd rfl h
  | cons t rest ih =>
      intro r hw _
      rw [processConnects_cons]
      by_cases hr : rest = []
      · subst hr
        refine ⟨WF_addClient r a t hw, ?_, ?_⟩
        · exact (mem_clients_addClient r a a t).mpr (Or.inr rfl)
        · intro h
          show lookupTS (setTS r.lastSeen a t) a = _
          rw [lookupTS_setTS_self]
          rfl
      · obtain ⟨h1, h2, h3⟩ := ih (r.addClient a t) (WF_addClient r a t hw) hr
        refine ⟨h1, h2, ?_⟩
        intro h
        rw [h3 hr]
        congr 1
        exact (List.getLast_cons hr).symm

/-! ## Claim theorems -/

/-- C1: for every registry state and every reap pass at time `now` with the
given `timeout`, an endpoint with recorded last-seen time `t` remains in the
client set iff `now - t ≤ timeout` and keeps its liveness record iff
`now - t ≤ timeout`; in particular at exactly `now - t = timeout` it is NOT
evicted (strict inequality), and it is removed exactly when
`now - t > timeout`. -/
theorem expire_removes_exactly_stale (r : Registry) (now timeout : Int)
    (a : Endpoint) (t : Int) (hw : WF r) (hmem : (a, t) ∈ r.lastSeen) :
    (a ∈ (r.removeStaleClients now timeout).clients ↔ now - t ≤ timeout)
    ∧ ((a, t) ∈ (r.removeStaleClients now timeout).lastSeen ↔ now - t ≤ timeout)
    ∧ (now - t = timeout → a ∈ (r.removeStaleClients now timeout).clients) := by
  obtain ⟨hnc, hnk, hsync⟩ := hw
  have hac : a ∈ r.clients :=
    (hsync a).mpr (List.mem_map.mpr ⟨(a, t), hmem, rfl⟩)
  have huniq : ∀ t', (a, t') ∈ r.lastSeen → t' = t :=
    fun t' h' => val_unique hnk h' hmem
  refine ⟨?_, ?_, ?_⟩
  · rw [mem_clients_removeStale]
    constructor
    · rintro ⟨_, hall⟩
      exact hall t hmem
    · intro hle
      exact ⟨hac, fun t' h' => by rw [huniq t' h']; exact hle⟩
  · rw [mem_lastSeen_removeStale]
    constructor
    · rintro ⟨_, hall⟩
      exact hall t hmem
    · intro hle
      exact ⟨hmem, fun t' h' => by rw [huniq t' h']; exact hle⟩
  · intro heq
    rw [mem_clients_removeStale]
    exact ⟨hac, fun t' h' => by rw [huniq t' h']; omega⟩

/-- C1 witness: a client last seen at t=20 is still registered after a reap
pass at t=50 with timeout 30 (Δ = 30 exactly: not evicted). -/
theorem expire_removes_exactly_stale_witness :
    (("10.0.0.1", 9000) : Endpoint) ∈
      ((⟨[("10.0.0.1", 9000)], [(("10.0.0.1", 9000), 20)]⟩ : Registry).removeStaleClients
        50 HEARTBEAT_TIMEOUT).clients :=
  (expire_removes_exactly_stale
    ⟨[("10.0.0.1", 9000)], [(("10.0.0.1", 9000), 20)]⟩ 50 HEARTBEAT_TIMEOUT
    ("10.0.0.1", 9000) 20
    ⟨by decide, by decide, by intro b; simp [inSync]⟩
    (by decide)).2.2 (by decide)

/-- C2 counterexample: a missing payload file is a fatal startup failure
(`start` raises `FileNotFoundError`), yet the process exit code is 0, not
nonzero: `main` catches the exception with `except Exception`, logs it and
returns normally (`server.py` lines 233–240). -/
theorem exit_nonzero_counterexample :
    mainExitCode false true true none = 0
    ∧ start false true true none = .raised .fileNotFound := by
  decide

/-- C2 (amended): the process exits 0 in every modelled scenario — fatal
startup failures (missing/invalid payload path, bind failure) raise out of
`start` but are caught and only logged by `main`, and an interrupt is caught
likewise; the failure is surfaced in the log, not in the exit status. -/
theorem exit_code_always_zero (fe isf bo : Bool) (rr : Option PyExc) :
    mainExitCode fe isf bo rr = 0
    ∧ (fe = false → start fe isf bo rr = .raised .fileNotFound)
    ∧ (isf = false → start fe isf bo rr = .raised .fileNotFound)
    ∧ (fe = true → isf = true → bo = false → start fe isf bo rr = .raised .oserror) := by
  refine ⟨?_, ?_, ?_, ?_⟩
  · cases fe <;> cases isf <;> cases bo <;> rcases rr with _ | e <;>
      first | rfl | (cases e <;> rfl)
  · intro h
    subst h
    rfl
  · intro h
    subst h
    cases fe <;> rfl
  · intro h1 h2 h3
    subst h1
    subst h2
    subst h3
    rfl

/-- C2 witness: concrete run of the amended claim at a bind failure. -/
theorem exit_code_always_zero_witness :
    mainExitCode true true false none = 0
    ∧ start true true false none = .raised .oserror :=
  ⟨(exit_code_always_zero true true false none).1,
   (exit_code_always_zero true true false none).2.2.2 rfl rfl rfl⟩

/-- C3 counterexample: the datagram text `"CONNECT\n"` differs from all
three control literals as byte content, yet the listener treats it as
`CONNECT` (the code strips whitespace first): the sender is registered and
an `ACK` reply is sent instead of the datagram being discarded. -/
theorem control_exact_bytes_counterexample :
    (handleDatagram ⟨[], []⟩ ("1.2.3.4", 7) (.text "CONNECT\n") 5).reply = some "ACK"
    ∧ ("1.2.3.4", 7) ∈
        (handleDatagram ⟨[], []⟩ ("1.2.3.4", 7) (.text "CONNECT\n") 5).reg.clients
    ∧ "CONNECT\n" ≠ "CONNECT" ∧ "CONNECT\n" ≠ "HEARTBEAT"
    ∧ "CONNECT\n" ≠ "DISCONNECT" := by
  decide

/-- C3 (amended): a received datagram is treated as a control message iff
its decoded text, after stripping leading and trailing whitespace, equals
one of the literals `CONNECT`, `HEARTBEAT`, `DISCONNECT`; a datagram whose
stripped text matches none of them is discarded silently (no reply, no log
record, registry unchanged). -/
theorem control_iff_stripped_literal (r : Registry) (a : Endpoint) (s : String)
    (now : Int) :
    ((pyStrip s = "CONNECT" ∨ pyStrip s = "HEARTBEAT") →
        handleDatagram r a (.text s) now
          = ⟨r.addClient a now, some "ACK", decide (a ∉ r.clients)⟩)
    ∧ (pyStrip s = "DISCONNECT" →
        handleDatagram r a (.text s) now = ⟨r.removeClient a, none, true⟩)
    ∧ (pyStrip s ≠ "CONNECT" → pyStrip s ≠ "HEARTBEAT" → pyStrip s ≠ "DISCONNECT" →
        handleDatagram r a (.text s) now = ⟨r, none, false⟩) :=
  handleText_cases r a s now

/-- C3 witness: whitespace-framed control messages are accepted and
`ACK`ed — including `U+001C` (file separator) framing, which Python's
`str.strip()` removes. -/
theorem control_iff_stripped_literal_witness :
    handleDatagram ⟨[], []⟩ ("8.8.8.8", 1) (.text " HEARTBEAT ") 4
      = ⟨(⟨[], []⟩ : Registry).addClient ("8.8.8.8", 1) 4, some "ACK", true⟩
    ∧ handleDatagram ⟨[], []⟩ ("8.8.8.8", 1) (.text "\x1cCONNECT") 4
      = ⟨(⟨[], []⟩ : Registry).addClient ("8.8.8.8", 1) 4, some "ACK", true⟩ :=
  ⟨(control_iff_stripped_literal ⟨[], []⟩ ("8.8.8.8", 1) " HEARTBEAT " 4).1
     (Or.inr (by decide)),
   (control_iff_stripped_literal ⟨[], []⟩ ("8.8.8.8", 1) "\x1cCONNECT" 4).1
     (Or.inl (by decide))⟩

/-- C6 counterexample: a decodable datagram matching no control message
(`"HELLO"`) is discarded but NOT logged (the listener has no `else` branch),
contradicting the claim that such datagrams are logged. -/
theorem unknown_message_not_logged_counterexample :
    (handleDatagram ⟨[], []⟩ ("1.2.3.4", 7) (.text "HELLO") 5).logged = false
    ∧ (handleDatagram ⟨[], []⟩ ("1.2.3.4", 7) (.text "HELLO") 5).reply = none
    ∧ (handleDatagram ⟨[], []⟩ ("1.2.3.4", 7) (.text "HELLO") 5).reg = ⟨[], []⟩ := by
  decide

/-- C6 (amended): the server replies `ACK` iff the stripped message is
`CONNECT` or `HEARTBEAT` (in which case the sender is registered);
`DISCONNECT` removes the sender with no reply; an undecodable datagram is
logged and discarded with no reply and no registry change; a decodable
datagram matching no control message is silently discarded — no reply, no
log record, registry unchanged. -/
theorem ack_iff_register (r : Registry) (a : Endpoint) (now : Int) :
    (∀ s, (handleDatagram r a (.text s) now).reply = some "ACK"
        ↔ (pyStrip s = "CONNECT" ∨ pyStrip s = "HEARTBEAT"))
    ∧ (∀ s, (pyStrip s = "CONNECT" ∨ pyStrip s = "HEARTBEAT") →
        a ∈ (handleDatagram r a (.text s) now).reg.clients)
    ∧ (∀ s, pyStrip s = "DISCONNECT" →
        (handleDatagram r a (.text s) now).reply = none
        ∧ a ∉ (handleDatagram r a (.text s) now).reg.clients)
    ∧ handleDatagram r a .undecodable now = ⟨r, none, true⟩
    ∧ (∀ s, pyStrip s ≠ "CONNECT" → pyStrip s ≠ "HEARTBEAT" →
        pyStrip s ≠ "DISCONNECT" →
        handleDatagram r a (.text s) now = ⟨r, none, false⟩) := by
  refine ⟨fun s => ?_, fun s h => ?_, fun s h => ?_, rfl,
    fun s hc hh hd => (handleText_cases r a s now).2.2 hc hh hd⟩
  · by_cases h1 : pyStrip s = "CONNECT" ∨ pyStrip s = "HEARTBEAT"
    · rw [(handleText_cases r a s now).1 h1]
      simpa using h1
    · rw [iff_false_intro h1, iff_false]
      by_cases h2 : pyStrip s = "DISCONNECT"
      · rw [(handleText_cases r a s now).2.1 h2]
        simp
      · rw [(handleText_cases r a s now).2.2
          (fun h => h1 (Or.inl h)) (fun h => h1 (Or.inr h)) h2]
        simp
  · rw [(handleText_cases r a s now).1 h]
    show a ∈ (r.addClient a now).clients
    exact (mem_clients_addClient r a a now).mpr (Or.inr rfl)
  · rw [(handleText_cases r a s now).2.1 h]
    refine ⟨rfl, ?_⟩
    show a ∉ (r.removeClient a).clients
    rw [mem_clients_removeClient]
    rintro ⟨_, hne⟩
    exact hne rfl

/-- C6 witness: a `CONNECT` framed by `U+00A0` (no-break space, removed by
Python's `str.strip()`) gets an `ACK`; concrete `DISCONNECT` gets no
reply. -/
theorem ack_iff_register_witness :
    (handleDatagram ⟨[], []⟩ ("3.3.3.3", 2) (.text "\u00A0CONNECT") 1).reply
      = some "ACK"
    ∧ (handleDatagram ⟨[], []⟩ ("3.3.3.3", 2) (.text "DISCONNECT") 1).reply = none :=
  ⟨((ack_iff_register ⟨[], []⟩ ("3.3.3.3", 2) 1).1 "\u00A0CONNECT").mpr
     (Or.inl (by decide)),
   ((ack_iff_register ⟨[], []⟩ ("3.3.3.3", 2) 1).2.2.1 "DISCONNECT" (by decide)).1⟩

/-- C4: after `N ≥ 1` consecutive `CONNECT` datagrams from the same endpoint
handled at times `t_1, …, t_N`, starting from any well-formed registry, the
registry holds exactly one client-set entry and exactly one liveness record
for that endpoint, and the recorded last-seen time is `t_N`, the time of the
most recent message.  (A `HEARTBEAT` takes the identical code path —
`message in ['CONNECT', 'HEARTBEAT']` — so the same statement covers it.) -/
theorem repeated_connect_idempotent (r : Registry) (a : Endpoint)
    (times : List Int) (hw : WF r) (h : times ≠ []) :
    (processConnects r a times).clients.countP (fun x => decide (x = a)) = 1
    ∧ ((processConnects r a times).lastSeen.map Prod.fst).countP
        (fun x => decide (x = a)) = 1
    ∧ lookupTS (processConnects r a times).lastSeen a = some (times.getLast h) := by
  obtain ⟨hwf, hmem, hlook⟩ := processConnects_spec a times r hw h
  refine ⟨List.count_eq_one_of_mem hwf.1 hmem, ?_, hlook h⟩
  exact List.count_eq_one_of_mem hwf.2.1 ((hwf.2.2 a).mp hmem)

/-- C4 witness: three `CONNECT`s at times 1, 2, 3 from one endpoint leave a
single record with last-seen 3. -/
theorem repeated_connect_idempotent_witness :
    (processConnects ⟨[], []⟩ ("5.6.7.8", 1234) [1, 2, 3]).clients.countP
        (fun x => decide (x = ("5.6.7.8", 1234))) = 1
    ∧ lookupTS (processConnects ⟨[], []⟩ ("5.6.7.8", 1234) [1, 2, 3]).lastSeen
        ("5.6.7.8", 1234) = some 3 :=
  ⟨(repeated_connect_idempotent ⟨[], []⟩ ("5.6.7.8", 1234) [1, 2, 3]
      ⟨by decide, by decide, by intro b; simp [inSync]⟩ (by decide)).1,
   (repeated_connect_idempotent ⟨[], []⟩ ("5.6.7.8", 1234) [1, 2, 3]
      ⟨by decide, by decide, by intro b; simp [inSync]⟩ (by decide)).2.2⟩

/-- C5: on a broadcast tick where exactly the endpoint `b` of the snapshot
fails, `b` is removed from both registry structures, every other snapshot
endpoint is still delivered the line (with terminator) and stays registered,
the tick completes (nothing is delivered to `b`, everything else is), and a
later `CONNECT`-driven `add_client` re-admits `b` with a fresh timestamp. -/
theorem single_send_failure_isolated (r : Registry) (line : String)
    (now timeout tc : Int) (b : Endpoint)
    (hb : b ∈ (r.removeStaleClients now timeout).clients) :
    b ∉ (broadcastTick r line now timeout (fun e => decide (e = b))).reg.clients
    ∧ lookupTS (broadcastTick r line now timeout
        (fun e => decide (e = b))).reg.lastSeen b = none
    ∧ (∀ e ∈ (r.removeStaleClients now timeout).clients, e ≠ b →
        e ∈ (broadcastTick r line now timeout (fun e => decide (e = b))).reg.clients
        ∧ (e, line ++ crlf)
            ∈ (broadcastTick r line now timeout (fun e => decide (e = b))).sent)
    ∧ (∀ p ∈ (broadcastTick r line now timeout (fun e => decide (e = b))).sent,
        p.1 ≠ b)
    ∧ b ∈ ((broadcastTick r line now timeout
        (fun e => decide (e = b))).reg.addClient b tc).clients
    ∧ lookupTS ((broadcastTick r line now timeout
        (fun e => decide (e = b))).reg.addClient b tc).lastSeen b = some tc := by
  have hbf : b ∈ (r.removeStaleClients now timeout).clients.filter
      (fun e => decide (e = b)) :=
    List.mem_filter.mpr ⟨hb, by simp⟩
  refine ⟨?_, ?_, ?_, ?_, ?_, ?_⟩
  · rw [broadcastTick_reg, mem_clients_evictAll]
    rintro ⟨_, hnot⟩
    exact hnot hbf
  · rw [broadcastTick_reg, lookupTS_eq_none_iff]
    intro hkey
    rcases List.mem_map.mp hkey with ⟨p, hp, hpb⟩
    rcases (mem_lastSeen_evictAll _ _ p).mp hp with ⟨_, hnot⟩
    rw [hpb] at hnot
    exact hnot hbf
  · intro e he hne
    constructor
    · rw [broadcastTick_reg, mem_clients_evictAll]
      refine ⟨he, fun hmem => ?_⟩
      rcases List.mem_filter.mp hmem with ⟨_, hd⟩
      exact hne (by simpa using hd)
    · rw [broadcastTick_sent]
      exact List.mem_map.mpr
        ⟨e, List.mem_filter.mpr ⟨he, by simp [hne]⟩, rfl⟩
  · intro p hp
    rw [broadcastTick_sent] at hp
    rcases List.mem_map.mp hp with ⟨e, hef, hep⟩
    rcases List.mem_filter.mp hef with ⟨_, hd⟩
    rw [← hep]
    simpa using hd
  · exact (mem_clients_addClient _ b b tc).mpr (Or.inr rfl)
  · exact lookupTS_setTS_self _ b tc

/-- C5 witness: two fresh subscribers, transmission to the second fails —
the first stays registered and still receives the line. -/
theorem single_send_failure_isolated_witness :
    (("1.1.1.1", 1) : Endpoint) ∈
      (broadcastTick
        ⟨[("1.1.1.1", 1), ("2.2.2.2", 2)],
         [(("1.1.1.1", 1), 0), (("2.2.2.2", 2), 0)]⟩
        "line" 0 30 (fun e => decide (e = ("2.2.2.2", 2)))).reg.clients :=
  ((single_send_failure_isolated
      ⟨[("1.1.1.1", 1), ("2.2.2.2", 2)],
       [(("1.1.1.1", 1), 0), (("2.2.2.2", 2), 0)]⟩
      "line" 0 30 99 ("2.2.2.2", 2) (by decide)).2.2.1
    ("1.1.1.1", 1) (by decide) (by decide)).1

/-- C7: with a duplicate-free client set, no stale endpoint and no send
failure, one traversal of an `N`-line payload leaves the registry unchanged
and delivers to each registered endpoint exactly the `N` lines, in source
order, each as one datagram `line ++ "\r\n"`; and over `fuel` cycles of the
outer loop the source is re-read every cycle (`fileState` indexed by cycle)
and the per-endpoint delivery sequence is the concatenation of the
successive cycles' line lists, terminator appended. -/
theorem traversal_broadcasts_in_order (r : Registry) (lines : List String)
    (linesOf : Nat → List String) (nows : Nat → Int) (i0 k fuel : Nat)
    (timeout : Int) (e : Endpoint)
    (hn : r.clients.Nodup) (he : e ∈ r.clients)
    (hst : ∀ j, ∀ p ∈ r.lastSeen, nows j - p.2 ≤ timeout)
    (hne : ∀ j, linesOf j ≠ []) :
    ((broadcastTraversal r lines nows i0 timeout (fun _ => false)).2.1.filter
        (fun p => decide (p.1 = e))).map Prod.snd = lines.map (fun l => l ++ crlf)
    ∧ (broadcastTraversal r lines nows i0 timeout (fun _ => false)).1 = r
    ∧ (((broadcastLoopRun (fun k' => some (linesOf k')) nows timeout
          (fun _ => false) fuel k i0 r).2.1).filter
            (fun p => decide (p.1 = e))).map Prod.snd
        = (((List.range fuel).map (fun j => linesOf (k + j))).flatten).map
            (fun l => l ++ crlf) := by
  refine ⟨?_, ?_, loopRun_proj_nofail linesOf nows timeout r e hn he hne hst fuel k i0⟩
  · rw [broadcastTraversal_nofail r lines nows i0 timeout hst]
    exact proj_join lines r.clients e hn he
  · rw [broadcastTraversal_nofail r lines nows i0 timeout hst]

/-- C7 witness: one fresh subscriber, payload `["a", "b"]` — the subscriber
receives `"a\r\n"` then `"b\r\n"`, once each, in order. -/
theorem traversal_broadcasts_in_order_witness :
    ((broadcastTraversal ⟨[("9.9.9.9", 3)], [(("9.9.9.9", 3), 0)]⟩ ["a", "b"]
        (fun _ => 10) 0 30 (fun _ => false)).2.1.filter
          (fun p => decide (p.1 = ("9.9.9.9", 3)))).map Prod.snd
      = ["a" ++ crlf, "b" ++ crlf] :=
  (traversal_broadcasts_in_order ⟨[("9.9.9.9", 3)], [(("9.9.9.9", 3), 0)]⟩
    ["a", "b"] (fun _ => ["a"]) (fun _ => 10) 0 0 1 30 ("9.9.9.9", 3)
    (by decide) (by decide)
    (by
      intro j p hp
      rw [List.mem_singleton] at hp
      subst hp
      show (10 : Int) - 0 ≤ 30
      decide)
    (fun _ => List.cons_ne_nil _ _)).1

/-- C8: whenever a load of the payload source yields no lines, the
broadcaster registers one interval wait and retries on the next iteration —
over `m` consecutive empty loads the loop performs exactly `m` waits,
delivers nothing, leaves the registry untouched and keeps running (it does
not crash or exit); and as soon as a load yields lines, the following
iteration broadcasts them normally. -/
theorem empty_load_waits_and_retries (fileState : Nat → Option (List String))
    (nows : Nat → Int) (timeout : Int) (fails : Endpoint → Bool)
    (m k i : Nat) (r : Registry)
    (hempty : ∀ j, j < m → read_file_lines (fileState (k + j)) = []) :
    broadcastLoopRun fileState nows timeout fails m k i r = (r, [], m)
    ∧ (read_file_lines (fileState (k + m)) ≠ [] →
        broadcastLoopRun fileState nows timeout fails (m + 1) k i r
          = ((broadcastTraversal r (read_file_lines (fileState (k + m)))
                nows i timeout fails).1,
             (broadcastTraversal r (read_file_lines (fileState (k + m)))
                nows i timeout fails).2.1,
             m)) :=
  ⟨loopRun_empty fileState nows timeout fails m k i r hempty,
   fun hne => loopRun_empty_then_run fileState nows timeout fails m k i r hempty hne⟩

/-- C8 witness: three consecutive empty loads produce three waits, no
datagrams and an unchanged registry. -/
theorem empty_load_waits_and_retries_witness :
    broadcastLoopRun (fun _ => some []) (fun _ => 0) 30 (fun _ => false) 3 0 0
        ⟨[], []⟩
      = (⟨[], []⟩, [], 3) :=
  (empty_load_waits_and_retries (fun _ => some []) (fun _ => 0) 30
    (fun _ => false) 3 0 0 ⟨[], []⟩ (fun _ _ => rfl)).1

/-- C9: on a broadcast tick whose post-reap snapshot is empty, zero
datagrams are delivered and the tick completes with the registry exactly as
the reap pass left it (the `client_count == 0` branch skips transmission and
the loop proceeds; no exception is raised — the tick function is total). -/
theorem empty_snapshot_no_sends (r : Registry) (line : String)
    (now timeout : Int) (fails : Endpoint → Bool)
    (h : (r.removeStaleClients now timeout).clients = []) :
    (broadcastTick r line now timeout fails).sent = []
    ∧ (broadcastTick r line now timeout fails).reg
        = r.removeStaleClients now timeout := by
  constructor
  · rw [broadcastTick_sent, h]
    rfl
  · rw [broadcastTick_reg, h]
    rfl

/-- C9 witness: an empty registry broadcasts nothing and stays empty. -/
theorem empty_snapshot_no_sends_witness :
    (broadcastTick ⟨[], []⟩ "x" 0 30 (fun _ => false)).sent = [] :=
  (empty_snapshot_no_sends ⟨[], []⟩ "x" 0 30 (fun _ => false) (by decide)).1

/-- C10: if the client set equals the key set of the last-seen map, then it
still does after every registry mutation the server performs — registering a
client (`add_client`), reaping stale clients, handling any datagram
(including `DISCONNECT`), and a whole broadcast tick including its
evictions on send failure.  Neither a client without a timestamp nor a
timestamp without a client can arise. -/
theorem registry_structures_in_sync (r : Registry) (h : inSync r) :
    (∀ a now, inSync (r.addClient a now))
    ∧ (∀ now timeout, inSync (r.removeStaleClients now timeout))
    ∧ (∀ a, inSync (r.removeClient a))
    ∧ (∀ sender d now, inSync (handleDatagram r sender d now).reg)
    ∧ (∀ line now timeout fails, inSync (broadcastTick r line now timeout fails).reg) := by
  refine ⟨fun a now => inSync_addClient r a now h,
          fun now timeout => inSync_removeStale r now timeout h,
          fun a => inSync_removeClient r a h,
          fun sender d now => ?_,
          fun line now timeout fails => ?_⟩
  · cases d with
    | undecodable => exact h
    | text s =>
        by_cases h1 : pyStrip s = "CONNECT" ∨ pyStrip s = "HEARTBEAT"
        · rw [(handleText_cases r sender s now).1 h1]
          exact inSync_addClient r sender now h
        · by_cases h2 : pyStrip s = "DISCONNECT"
          · rw [(handleText_cases r sender s now).2.1 h2]
            exact inSync_removeClient r sender h
          · rw [(handleText_cases r sender s now).2.2
              (fun hx => h1 (Or.inl hx)) (fun hx => h1 (Or.inr hx)) h2]
            exact h
  · rw [broadcastTick_reg]
    exact inSync_evictAll _ _ (inSync_removeStale r now timeout h)

/-- C10 witness: the invariant, instantiated at the empty registry and an
`add_client` call. -/
theorem registry_structures_in_sync_witness :
    inSync ((⟨[], []⟩ : Registry).addClient ("1.2.3.4", 7) 0) :=
  (registry_structures_in_sync ⟨[], []⟩ (by intro a; simp [inSync])).1
    ("1.2.3.4", 7) 0

end UDPServer
